import Mathlib

/-!
Verification development for `split_hindcast_WDCC.py`.

The script reorganizes daily GraphCast hindcast NetCDF files: it extracts the
date from the filename, classifies each data variable as a surface variable or
a pressure-level variable, aggregates pressure-level variables of one base
quantity along a new `plevel` dimension, enriches coordinate and variable
attributes from a fixed metadata catalog, and writes one surface file plus one
file per base quantity, all through a dispatcher that scans one year's inputs.

The embedding below models the script's data structures and control flow.
Attribute dictionaries become insertion-ordered association lists, datasets
become explicit coordinate/variable maps, the two regular expressions become
character-list parsers, and the two driver functions become pure functions
returning the list of externally visible effects they perform (prints, log
appends, directory creation, dataset writes) together with the uncaught
exception, if any, that aborted them.
-/

set_option maxRecDepth 8192

namespace WDCC

/-- Attribute dictionaries of the script (`.attrs`, `metadata_dict` entries,
`global_attrs`): insertion-ordered association lists from attribute name to
value.  The single integer-valued attribute in the source (`realization: 1`)
is rendered as its decimal string. -/
abbrev Attrs := List (String × String)

/-- Python `dict.update(upd)` on an insertion-ordered dictionary: keys already
present keep their position and receive the new value; keys only in `upd` are
appended in `upd` order. -/
def attrsUpdate (a upd : Attrs) : Attrs :=
  (a.map fun p => match upd.lookup p.1 with | some v => (p.1, v) | none => p)
    ++ upd.filter fun q => (a.lookup q.1).isNone

/-- Python `dict.pop(k, None)`: remove the key `k` if present. -/
def attrsPop (a : Attrs) (k : String) : Attrs :=
  a.filter fun p => p.1 != k

/-- An xarray `DataArray` as far as the script observes it: its dimensions
with their sizes, and its attribute dictionary.  The numeric payload is never
inspected by the script, so it is not modelled. -/
structure DataArray where
  dims : List (String × Nat)
  attrs : Attrs
deriving DecidableEq, Repr

/-- An xarray `Dataset` as far as the script observes it: coordinate
attribute dictionaries keyed by coordinate name, and data variables keyed by
variable name. -/
structure Dataset where
  coords : List (String × Attrs)
  data_vars : List (String × DataArray)
deriving DecidableEq, Repr

/-- Python `name in ds` on an xarray `Dataset`: membership among the
dataset's variables, coordinates included. -/
def dsContains (ds : Dataset) (name : String) : Bool :=
  (ds.coords.lookup name).isSome || (ds.data_vars.lookup name).isSome

/-- In-place `ds[name].attrs` mutation: apply `f` to the attribute dictionary
of the coordinate or data variable called `name`. -/
def dsMapAttrs (ds : Dataset) (name : String) (f : Attrs → Attrs) : Dataset :=
  { coords := ds.coords.map fun p => if p.1 == name then (p.1, f p.2) else p
    data_vars := ds.data_vars.map fun p =>
      if p.1 == name then (p.1, { p.2 with attrs := f p.2.attrs }) else p }

/-- The script's `ds[name].attrs.update(upd)`. -/
def dsUpdateAttrs (ds : Dataset) (name : String) (upd : Attrs) : Dataset :=
  dsMapAttrs ds name (fun a => attrsUpdate a upd)

/-- Source `drop_history_dim`: squeeze away a `history` dimension of size
exactly 1. -/
def drop_history_dim (data_array : DataArray) : DataArray :=
  if data_array.dims.lookup "history" == some 1 then
    { data_array with dims := data_array.dims.filter fun p => p.1 != "history" }
  else data_array

/-- Source line 49: the six pressure-level base quantities. -/
def pressure_vars : List String := ["q", "t", "z", "u", "v", "w"]

/-- Source line 50: the thirteen pressure levels (hPa). -/
def pressure_levels : List Nat :=
  [50, 100, 150, 200, 250, 300, 400, 500, 600, 700, 850, 925, 1000]

/-- Source line 51: the five surface variable names. -/
def surface_var_names : List String := ["u10m", "v10m", "t2m", "msl", "tp06"]

/-- Outcome of classifying one variable name. -/
inductive Classification where
  | pressureLevel (base : String) (level : Nat)
  | surface
  | unrecognized
deriving DecidableEq, Repr

/-- The nested loop of source lines 62-70: iterate bases, then levels, until
`var_name == f"{base_var}{level}"` matches, breaking out on the first hit. -/
def findPressureMatch (name : String) : Option (String × Nat) :=
  pressure_vars.findSome? fun b =>
    (pressure_levels.find? fun l => name == b ++ toString l).map fun l => (b, l)

/-- The classification decision of source lines 62-73: pressure-level match is
attempted first; a non-pressure name in `surface_var_names` is a surface
variable; anything else is dropped. -/
def classify (name : String) : Classification :=
  match findPressureMatch name with
  | some (b, l) => Classification.pressureLevel b l
  | none =>
    if surface_var_names.contains name then Classification.surface
    else Classification.unrecognized

/-- The `metadata_dict` built in `__main__` (source lines 168-176). -/
def metadata_dict : List (String × Attrs) :=
  [("lat", [("long_name", "Latitude"), ("standard_name", "latitude"),
            ("units", "degrees_north"), ("axis", "Y")]),
   ("lon", [("long_name", "Longitude"), ("standard_name", "longitude"),
            ("units", "degrees_east"), ("axis", "X")]),
   ("msl", [("long_name", "Mean Sea Level Pressure"),
            ("standard_name", "air_pressure_at_mean_sea_level"), ("units", "Pa")]),
   ("t2m", [("long_name", "2m Temperature"), ("standard_name", "air_temperature"),
            ("units", "K")]),
   ("v10m", [("long_name", "10m Meridional Wind"), ("standard_name", "northward_wind"),
             ("units", "m s-1")]),
   ("u10m", [("long_name", "10m Zonal Wind"), ("standard_name", "eastward_wind"),
             ("units", "m s-1")]),
   ("tp06", [("long_name", "6-Hour Total Precipitation"),
             ("standard_name", "precipitation_amount"), ("units", "m")])]

/-- Source lines 36-38: enrich `lat` and `lon` attributes only when both are
present in the dataset. -/
def enrichLatLon (ds : Dataset) : Dataset :=
  if dsContains ds "lat" && dsContains ds "lon" then
    dsUpdateAttrs (dsUpdateAttrs ds "lat" ((metadata_dict.lookup "lat").getD []))
      "lon" ((metadata_dict.lookup "lon").getD [])
  else ds

/-- Source lines 43-47: the attributes assigned to the `time` coordinate. -/
def time_attrs_new : Attrs :=
  [("long_name", "Time"), ("standard_name", "time"), ("axis", "T")]

/-- Source lines 41-47: pop `units`, pop `calendar`, then update with the new
time attributes, in that order. -/
def updateTimeAttrs (a : Attrs) : Attrs :=
  attrsUpdate (attrsPop (attrsPop a "units") "calendar") time_attrs_new

/-- Source lines 40-47: rewrite the `time` coordinate's attributes when the
dataset has a `time` variable. -/
def enrichTime (ds : Dataset) : Dataset :=
  if dsContains ds "time" then dsMapAttrs ds "time" updateTimeAttrs else ds

/-- The two accumulators of the classification loop (source lines 53-54):
`surface_ds` collects surface variables in encounter order, and
`grouped_pressure_data` maps each base quantity, in `pressure_vars` order, to
its accumulated list of (level, array) pairs. -/
structure ClassAcc where
  surface_ds : List (String × DataArray)
  grouped : List (String × List (Nat × DataArray))
deriving DecidableEq, Repr

/-- One iteration of the classification loop (source lines 56-73): squeeze the
history dimension, enrich from `metadata_dict` where a mapping exists, then
append to the matching pressure group, or to the surface collection, or drop
the variable. -/
def classifyStep (acc : ClassAcc) (nv : String × DataArray) : ClassAcc :=
  let var_data := drop_history_dim nv.2
  let var_data :=
    match metadata_dict.lookup nv.1 with
    | some md => { var_data with attrs := attrsUpdate var_data.attrs md }
    | none => var_data
  match findPressureMatch nv.1 with
  | some (b, l) =>
    { acc with grouped := acc.grouped.map fun g =>
        if g.1 == b then (g.1, g.2 ++ [(l, var_data)]) else g }
  | none =>
    if surface_var_names.contains nv.1 then
      { acc with surface_ds := acc.surface_ds ++ [(nv.1, var_data)] }
    else acc

/-- The full classification loop over `ds.data_vars`. -/
def classifyVars (dvars : List (String × DataArray)) : ClassAcc :=
  dvars.foldl classifyStep ⟨[], pressure_vars.map fun v => (v, [])⟩

/-- Consume the literal character sequence `p` from the front of `l`,
returning the remainder on success. -/
def dropPre : List Char → List Char → Option (List Char)
  | [], l => some l
  | _ :: _, [] => none
  | p :: ps, c :: cs => if c = p then dropPre ps cs else none

/-- Consume exactly `n` decimal digits from the front of `l`, returning the
digits and the remainder. -/
def takeDigits : Nat → List Char → Option (List Char × List Char)
  | 0, l => some ([], l)
  | _ + 1, [] => none
  | n + 1, c :: cs =>
    if c.isDigit then (takeDigits n cs).map fun p => (c :: p.1, p.2)
    else none

/-- Match the transformer's date regular expression (source line 19,
`graphcast_` then groups of 4, 2 and 2 digits separated by underscores)
against the front of `l`, returning the three captured groups. -/
def matchDateAt (l : List Char) : Option (String × String × String) :=
  (dropPre "graphcast_".data l).bind fun r1 =>
  (takeDigits 4 r1).bind fun py =>
  (dropPre ['_'] py.2).bind fun r3 =>
  (takeDigits 2 r3).bind fun pm =>
  (dropPre ['_'] pm.2).bind fun r5 =>
  (takeDigits 2 r5).bind fun pd =>
  some (String.mk py.1, String.mk pm.1, String.mk pd.1)

/-- Python `re.search` with the date pattern: try every start position from
the left and return the first (leftmost) match. -/
def searchDate : List Char → Option (String × String × String)
  | [] => none
  | c :: cs =>
    match matchDateAt (c :: cs) with
    | some r => some r
    | none => searchDate cs

/-- The embedded date pattern as a character sequence: `graphcast_` followed
by the year, month and day digit groups separated by underscores. -/
def datePat (y m d : String) : List Char :=
  "graphcast_".data ++ y.data ++ '_' :: m.data ++ '_' :: d.data

/-- The dispatcher's discovery filter (source line 151): Python `re.match`
anchors at the start of the name only, so the name must begin with
`graphcast_`, the year string, an underscore, two digits, an underscore, two
digits and `.nc`, and may continue arbitrarily after that. -/
def discoveryMatch (year : String) (f : String) : Bool :=
  ((dropPre ("graphcast_" ++ year ++ "_").data f.data).bind fun r =>
   (takeDigits 2 r).bind fun mp =>
   (dropPre ['_'] mp.2).bind fun r2 =>
   (takeDigits 2 r2).bind fun dp =>
   dropPre ['.', 'n', 'c'] dp.2).isSome

/-- Source lines 75-100: the `global_attrs` dictionary, built once per input
file.  `now1` and `now2` stand for the two `datetime.utcnow()` timestamp
strings and `date_str` for the date extracted from the filename. -/
def global_attrs (now1 now2 date_str : String) : Attrs :=
  [("institution", "The University of Texas at Austin, Austin, Texas, USA"),
   ("institute_id", "UT-Austin"),
   ("experiment_id", "ERA5-Based Graphcast Hindcast"),
   ("source", "Google Deepmind Graphcast-operational output using ERA5 as initial condition"),
   ("model_id", "Graphcast-ERA5"),
   ("forcing", "ERA5 Reanalysis Data"),
   ("parent_experiment_id", "GraphCast Hindcast"),
   ("contact", "Naveen Sudharsan (naveens@utexas.edu); Manmeet Singh (manmeet.singh@utexas.edu); Zong-Liang Yang (liang@jsg.utexas.edu); Dev Niyogi (dev.niyogi@jsg.utexas.edu)"),
   ("references", "DeepMind GraphCast Model Documentation, ERA5 Reanalysis Data"),
   ("product", "AI model 15-day forecast"),
   ("experiment", "ERA5-based Graphcast Forecasts"),
   ("frequency", "6-hourly"),
   ("creation_date", now1),
   ("history", now2 ++ " Data processed for NetCDF format"),
   ("project_id", "UT Austin Graphcast Hindcast"),
   ("title", "Graphcast-operational Forecast Data for " ++ date_str),
   ("modeling_realm", "atmosphere"),
   ("realization", "1"),
   ("Conventions", "CF-1.8")]

/-- Source line 102: the NetCDF time encoding passed to every write. -/
def encoding : List (String × Attrs) :=
  [("time", [("units", "days since 0001-01-01"), ("calendar", "proleptic_gregorian")])]

/-- Source lines 118-122: the attributes assigned to the `plevel` coordinate. -/
def plevel_attrs : Attrs :=
  [("long_name", "Pressure Level"), ("standard_name", "air_pressure"), ("units", "hPa")]

/-- Source lines 124-135: the per-quantity attribute chain. -/
def pressureVarAttrs (var : String) : Attrs :=
  if var == "t" then
    [("long_name", "Temperature"), ("standard_name", "air_temperature"), ("units", "K")]
  else if var == "u" then
    [("long_name", "Zonal Wind"), ("standard_name", "eastward_wind"), ("units", "m s-1")]
  else if var == "v" then
    [("long_name", "Meridional Wind"), ("standard_name", "northward_wind"), ("units", "m s-1")]
  else if var == "w" then
    [("long_name", "Vertical Wind"), ("standard_name", "upward_air_velocity"), ("units", "m s-1")]
  else if var == "z" then
    [("long_name", "Geopotential Height"), ("standard_name", "geopotential_height"), ("units", "m")]
  else if var == "q" then
    [("long_name", "Specific Humidity"), ("standard_name", "specific_humidity"), ("units", "kg kg-1")]
  else []

/-- Python `sorted(level_data)` (source line 114): a stable sort of the
(level, array) pairs.  Python's sort is stable and compares tuples
lexicographically; within one file the levels of a group are pairwise
distinct, so the comparison never reaches the second component and any
stable sort by the level alone computes the same list. -/
def sortByLevel {α : Type} (g : List (Nat × α)) : List (Nat × α) :=
  List.insertionSort (fun p q => p.1 ≤ q.1) g

instance {α : Type} : IsTotal (Nat × α) (fun p q => p.1 ≤ q.1) :=
  ⟨fun a b => Nat.le_total a.1 b.1⟩

instance {α : Type} : IsTrans (Nat × α) (fun p q => p.1 ≤ q.1) :=
  ⟨fun _ _ _ => Nat.le_trans⟩

/-- The pressure-level coordinate an aggregated group receives: the levels of
the group in sorted order. -/
def aggLevels {α : Type} (g : List (Nat × α)) : List Nat :=
  (sortByLevel g).map Prod.fst

/-- `numpy.int32` conversion of a natural number: reduce modulo 2^32 and
interpret in two's complement. -/
def toInt32 (n : Nat) : Int :=
  if n % 2 ^ 32 < 2 ^ 31 then ((n % 2 ^ 32 : Nat) : Int)
  else ((n % 2 ^ 32 : Nat) : Int) - 2 ^ 32

/-- Modelled from the spec: `xarray.concat` along the new `plevel` dimension
is an external library primitive, absent from the repository.  The spec
(section 4.4) requires that concatenation preserve per-level array shape
exactly and makes a shape mismatch across levels a fatal error, and makes the
result carry the first array's attributes; the model therefore concatenates
when all arrays have identical dimensions and raises otherwise. -/
def xrConcat (arrays : List DataArray) : Except String DataArray :=
  match arrays with
  | [] => Except.error "cannot concatenate an empty list"
  | a :: rest =>
    if rest.all fun b => b.dims == a.dims then
      Except.ok { dims := ("plevel", arrays.length) :: a.dims, attrs := a.attrs }
    else Except.error "shape mismatch across pressure levels"

/-- Externally visible actions of the transformer, in program order. -/
inductive Effect where
  | reportProcessing (file : String) (date : String)
  | reportReadError (file : String) (err : String)
  | appendSkipLog (line : String)
  | writeSurface (path : String) (vars : List (String × DataArray))
      (gattrs : Attrs) (enc : List (String × Attrs))
  | reportSavedSurface (path : String)
  | writePressure (path : String) (varName : String) (plevels : List Int)
      (plevelAttrs : Attrs) (varAttrs : Attrs) (gattrs : Attrs)
      (enc : List (String × Attrs))
  | reportSavedPressure (varName : String) (path : String)
  | closeDataset
deriving DecidableEq, Repr

/-- The pressure-group loop of source lines 112-143.  Each non-empty group is
sorted, concatenated, given its coordinate and attribute enrichment and
written.  A concatenation failure is an uncaught exception: the loop stops at
that group, the remaining groups produce nothing, and the error is returned
as the second component. -/
def processPressureGroups (grouped : List (String × List (Nat × DataArray)))
    (gattrs : Attrs) (date_str : String) (output_base_dir : String) :
    List Effect × Option String :=
  match grouped with
  | [] => ([], none)
  | (var, level_data) :: rest =>
    match level_data with
    | [] => processPressureGroups rest gattrs date_str output_base_dir
    | _ :: _ =>
      match xrConcat ((sortByLevel level_data).map Prod.snd) with
      | Except.error e => ([], some e)
      | Except.ok combined =>
        let path := output_base_dir ++ "/" ++ var ++ "_pressure_levels_" ++ date_str ++ ".nc"
        let r := processPressureGroups rest gattrs date_str output_base_dir
        (Effect.writePressure path var ((aggLevels level_data).map toInt32)
            (attrsUpdate [] plevel_attrs)
            (attrsUpdate combined.attrs (pressureVarAttrs var)) gattrs encoding
          :: Effect.reportSavedPressure var path :: r.1, r.2)

/-- Source `process_single_netcdf`.  The outcome of `xr.open_dataset` on the
joined input path is abstracted as the `openResult` argument, since the input
filesystem is external.  The result is the list of effects the call performs
together with the uncaught exception, if any, that aborted it; an aborted run
never reaches `ds.close()`. -/
def process_single_netcdf (input_file : String) (openResult : Except String Dataset)
    (output_base_dir : String) (now1 now2 : String) : List Effect × Option String :=
  match searchDate input_file.data with
  | none => ([], none)
  | some (file_year, month, day) =>
    let date_str := file_year ++ "-" ++ month ++ "-" ++ day
    let e0 := Effect.reportProcessing input_file date_str
    match openResult with
    | Except.error e =>
      ([e0, Effect.reportReadError input_file e,
        Effect.appendSkipLog (input_file ++ " - " ++ e)], none)
    | Except.ok ds0 =>
      let ds1 := enrichTime (enrichLatLon ds0)
      let acc := classifyVars ds1.data_vars
      let gattrs := global_attrs now1 now2 date_str
      let surfaceEffs :=
        if acc.surface_ds.isEmpty then []
        else
          let path := output_base_dir ++ "/surface_variables_" ++ date_str ++ ".nc"
          [Effect.writeSurface path acc.surface_ds gattrs encoding,
           Effect.reportSavedSurface path]
      let r := processPressureGroups acc.grouped gattrs date_str output_base_dir
      (e0 :: surfaceEffs ++ r.1 ++ (if r.2.isSome then [] else [Effect.closeDataset]), r.2)

/-- Externally visible actions of the dispatcher. -/
inductive DispatchEffect where
  | makeDirs (path : String) (exist_ok : Bool)
  | reportNoFiles (year : String) (input_dir : String)
  | invokeTransformer (input_file : String)
deriving DecidableEq, Repr

/-- Source `process_netcdf_for_year`: create the year's output directory
under the current working directory, list and filter the input directory,
and either report that no files were found or invoke the transformer once
per discovered file.  `listing` abstracts `os.listdir(input_dir)`. -/
def process_netcdf_for_year (year : String) (cwd input_dir : String)
    (listing : List String) : List DispatchEffect :=
  let output_base_dir := cwd ++ "/" ++ year
  let mk := DispatchEffect.makeDirs output_base_dir true
  if (List.insertionSort (fun a b : String => a ≤ b)
      (listing.filter (discoveryMatch year))).isEmpty then
    [mk, DispatchEffect.reportNoFiles year input_dir]
  else
    mk :: (List.insertionSort (fun a b : String => a ≤ b)
      (listing.filter (discoveryMatch year))).map DispatchEffect.invokeTransformer

/-! ## Helper lemmas -/

theorem findPressureMatch_some {name b : String} {l : Nat}
    (h : findPressureMatch name = some (b, l)) :
    b ∈ pressure_vars ∧ l ∈ pressure_levels ∧ name = b ++ toString l := by
  obtain ⟨b', hb', hf⟩ := List.exists_of_findSome?_eq_some h
  cases hfind : pressure_levels.find? (fun l => name == b' ++ toString l) with
  | none => rw [hfind] at hf; exact Option.noConfusion hf
  | some l' =>
    rw [hfind] at hf
    have hf' : b' = b ∧ l' = l := by simpa using hf
    obtain ⟨hb, hl⟩ := hf'
    subst hb; subst hl
    refine ⟨hb', List.mem_of_find?_eq_some hfind, ?_⟩
    have hp := List.find?_some hfind
    exact eq_of_beq hp

/-! ## C1 -/

/-- C1: classification of a variable name yields exactly one of three
outcomes.  Every name of the form base-plus-level with a listed base and a
listed level is classified as that pressure-level variable; every name in the
surface set is classified as a surface variable; every remaining name is
unrecognized, and an unrecognized variable leaves both accumulators of the
classification loop untouched, so it contributes to no output.  One loop
iteration never extends both the surface collection and a pressure group, so
no name is placed in both. -/
theorem C1_classification_trichotomy :
    (∀ b ∈ pressure_vars, ∀ l ∈ pressure_levels,
      classify (b ++ toString l) = Classification.pressureLevel b l)
    ∧ (∀ s ∈ surface_var_names, classify s = Classification.surface)
    ∧ (∀ name : String,
        (∀ b ∈ pressure_vars, ∀ l ∈ pressure_levels, name ≠ b ++ toString l) →
        surface_var_names.contains name = false →
        classify name = Classification.unrecognized)
    ∧ (∀ (acc : ClassAcc) (nv : String × DataArray),
        classify nv.1 = Classification.unrecognized → classifyStep acc nv = acc)
    ∧ (∀ (acc : ClassAcc) (nv : String × DataArray),
        (classifyStep acc nv).surface_ds = acc.surface_ds
        ∨ (classifyStep acc nv).grouped = acc.grouped) := by
  refine ⟨by decide, by decide, ?_, ?_, ?_⟩
  · intro name hnp hns
    unfold classify
    cases hm : findPressureMatch name with
    | some bl =>
      obtain ⟨hb, hl, hEq⟩ := findPressureMatch_some (b := bl.1) (l := bl.2)
        (by simpa using hm)
      exact absurd hEq (hnp bl.1 hb bl.2 hl)
    | none =>
      have hmem : name ∉ surface_var_names := by simpa using hns
      simp [hmem]
  · intro acc nv h
    unfold classify at h
    unfold classifyStep
    cases hm : findPressureMatch nv.1 with
    | some bl => rw [hm] at h; simp at h
    | none =>
      rw [hm] at h
      cases hs : surface_var_names.contains nv.1 with
      | true => rw [hs] at h; simp at h
      | false => simp [hs]
  · intro acc nv
    unfold classifyStep
    cases hm : findPressureMatch nv.1 with
    | some bl => left; rfl
    | none =>
      cases hs : surface_var_names.contains nv.1 with
      | true => right; simp
      | false => left; simp

/-- Concrete instantiation of C1 discharging each hypothesis. -/
theorem C1_classification_trichotomy_witness :
    classify ("t" ++ toString 500) = Classification.pressureLevel "t" 500
    ∧ classify "u10m" = Classification.surface
    ∧ classify "foo" = Classification.unrecognized
    ∧ classifyStep ⟨[], pressure_vars.map fun v => (v, [])⟩ ("foo", ⟨[], []⟩)
        = ⟨[], pressure_vars.map fun v => (v, [])⟩ :=
  ⟨C1_classification_trichotomy.1 "t" (by decide) 500 (by decide),
   C1_classification_trichotomy.2.1 "u10m" (by decide),
   C1_classification_trichotomy.2.2.1 "foo" (by decide) (by decide),
   C1_classification_trichotomy.2.2.2.1 _ ("foo", ⟨[], []⟩)
     (C1_classification_trichotomy.2.2.1 "foo" (by decide) (by decide))⟩

/-! ## Association-list lookup lemmas -/

theorem lookup_append (k : String) (l1 l2 : Attrs) :
    (l1 ++ l2).lookup k = (l1.lookup k).or (l2.lookup k) := by
  induction l1 with
  | nil => simp [List.lookup]
  | cons p l1 ih =>
    obtain ⟨x, w⟩ := p
    simp only [List.cons_append, List.lookup]
    cases k == x with
    | true => rfl
    | false => simpa using ih

theorem lookup_update_map (a u : Attrs) (k : String) :
    ((a.map fun p =>
        match u.lookup p.1 with | some v => (p.1, v) | none => p).lookup k)
      = (a.lookup k).map fun w => (u.lookup k).getD w := by
  induction a with
  | nil => simp
  | cons p a ih =>
    obtain ⟨x, w⟩ := p
    by_cases hx : k = x
    · subst hx
      cases hu : u.lookup k with
      | some v => simp [List.lookup, hu]
      | none => simp [List.lookup, hu]
    · have hbeq : (k == x) = false := by simpa using hx
      cases hu : u.lookup x with
      | some v => simp [List.lookup, hu, hbeq, ih]
      | none => simp [List.lookup, hu, hbeq, ih]

theorem lookup_filter_isNone (a u : Attrs) (k : String) :
    ((u.filter fun q => (a.lookup q.1).isNone).lookup k)
      = if (a.lookup k).isSome then none else u.lookup k := by
  induction u with
  | nil => simp [List.lookup]
  | cons q u ih =>
    obtain ⟨x, w⟩ := q
    by_cases hx : k = x
    · subst hx
      cases ha : a.lookup k with
      | some v => simpa [List.filter, ha] using ih
      | none => simp [List.filter, ha, List.lookup]
    · have hbeq : (k == x) = false := by simpa using hx
      cases ha : a.lookup x with
      | some v => simp [List.filter, ha, List.lookup, hbeq, ih]
      | none => simp [List.filter, ha, List.lookup, hbeq, ih]

/-- Lookup in a Python `dict.update`: the updating dictionary wins where it
has the key, while other keys keep their old value. -/
theorem attrsUpdate_lookup (a u : Attrs) (k : String) :
    (attrsUpdate a u).lookup k = (u.lookup k).or (a.lookup k) := by
  unfold attrsUpdate
  rw [lookup_append, lookup_update_map, lookup_filter_isNone]
  cases ha : a.lookup k with
  | none => cases hu : u.lookup k <;> simp
  | some w => cases hu : u.lookup k <;> simp

/-- Lookup after a Python `dict.pop`. -/
theorem attrsPop_lookup (a : Attrs) (k k' : String) :
    (attrsPop a k).lookup k' = if k' = k then none else a.lookup k' := by
  induction a with
  | nil => simp [attrsPop, List.lookup]
  | cons p a ih =>
    obtain ⟨x, w⟩ := p
    by_cases hxk : x = k
    · subst hxk
      by_cases hk : k' = x
      · subst hk; simpa [attrsPop, List.filter, List.lookup] using ih
      · have hbeq : (k' == x) = false := by simpa using hk
        simpa [attrsPop, List.filter, List.lookup, hbeq, hk] using ih
    · have hbx : (x != k) = true := by simpa using hxk
      by_cases hk : k' = x
      · subst hk
        have : ¬ (k' = k) := fun h => hxk h
        simp [attrsPop, List.filter, hbx, List.lookup, this]
      · have hbeq : (k' == x) = false := by simpa using hk
        simpa [attrsPop, List.filter, hbx, List.lookup, hbeq] using ih

theorem dsMapAttrs_coords_lookup (ds : Dataset) (name : String) (f : Attrs → Attrs) :
    (dsMapAttrs ds name f).coords.lookup name = (ds.coords.lookup name).map f := by
  show ((ds.coords.map fun p => if p.1 == name then (p.1, f p.2) else p).lookup name)
    = (ds.coords.lookup name).map f
  induction ds.coords with
  | nil => simp
  | cons p cs ih =>
    obtain ⟨x, w⟩ := p
    simp only [List.map_cons, beq_iff_eq] at ih ⊢
    by_cases hx : name = x
    · subst hx
      rw [if_pos rfl]
      simp [List.lookup]
    · have h2 : (name == x) = false := by simpa using hx
      rw [if_neg fun hc => hx hc.symm]
      simp [List.lookup, h2, ih]

theorem dsMapAttrs_coords_lookup_ne (ds : Dataset) (name k : String)
    (f : Attrs → Attrs) (h : k ≠ name) :
    (dsMapAttrs ds name f).coords.lookup k = ds.coords.lookup k := by
  show ((ds.coords.map fun p => if p.1 == name then (p.1, f p.2) else p).lookup k)
    = ds.coords.lookup k
  induction ds.coords with
  | nil => simp
  | cons p cs ih =>
    obtain ⟨x, w⟩ := p
    simp only [List.map_cons, beq_iff_eq] at ih ⊢
    by_cases hx : x = name
    · subst hx
      have h2 : (k == x) = false := by simpa using h
      rw [if_pos rfl]
      simp [List.lookup, h2, ih]
    · rw [if_neg hx]
      by_cases hk : k = x
      · subst hk; simp [List.lookup]
      · have h2 : (k == x) = false := by simpa using hk
        simp [List.lookup, h2, ih]

/-! ## C7 -/

/-- The encoding argument of a write effect, when the effect is a write. -/
def writeEncoding : Effect → Option (List (String × Attrs))
  | Effect.writeSurface _ _ _ enc => some enc
  | Effect.writePressure _ _ _ _ _ _ enc => some enc
  | _ => none

/-- The global-attribute argument of a write effect, when the effect is a
write. -/
def effGlobalAttrs : Effect → Option Attrs
  | Effect.writeSurface _ _ g _ => some g
  | Effect.writePressure _ _ _ _ _ g _ => some g
  | _ => none

theorem processPressureGroups_write_fields
    (grouped : List (String × List (Nat × DataArray))) (g : Attrs)
    (d o : String) :
    ∀ eff ∈ (processPressureGroups grouped g d o).1,
      (∀ enc, writeEncoding eff = some enc → enc = encoding)
      ∧ (∀ g', effGlobalAttrs eff = some g' → g' = g) := by
  induction grouped with
  | nil => intro eff h; simp [processPressureGroups] at h
  | cons p rest ih =>
    obtain ⟨var, level_data⟩ := p
    intro eff h
    cases level_data with
    | nil => exact ih eff h
    | cons q qs =>
      simp only [processPressureGroups] at h
      cases hc : xrConcat ((sortByLevel (q :: qs)).map Prod.snd) with
      | error e => simp only [hc] at h; simp at h
      | ok combined =>
        simp only [hc, List.mem_cons] at h
        rcases h with h | h | h
        · subst h
          exact ⟨fun enc henc => by simpa [writeEncoding] using henc.symm,
                 fun g' hg => by simpa [effGlobalAttrs] using hg.symm⟩
        · subst h
          exact ⟨fun enc henc => by simp [writeEncoding] at henc,
                 fun g' hg => by simp [effGlobalAttrs] at hg⟩
        · exact ih eff h

theorem process_single_write_fields (file : String)
    (openRes : Except String Dataset) (outDir n1 n2 : String)
    (y m d : String) (hsd : searchDate file.data = some (y, m, d)) :
    ∀ eff ∈ (process_single_netcdf file openRes outDir n1 n2).1,
      (∀ enc, writeEncoding eff = some enc → enc = encoding)
      ∧ (∀ g', effGlobalAttrs eff = some g' →
          g' = global_attrs n1 n2 (y ++ "-" ++ m ++ "-" ++ d)) := by
  intro eff h
  unfold process_single_netcdf at h
  rw [hsd] at h
  cases openRes with
  | error e =>
    simp only [List.mem_cons, List.not_mem_nil, or_false] at h
    rcases h with h | h | h <;> subst h <;>
      exact ⟨fun enc henc => by simp [writeEncoding] at henc,
             fun g' hg => by simp [effGlobalAttrs] at hg⟩
  | ok ds0 =>
    simp only [List.mem_cons, List.mem_append] at h
    rcases h with ((h | h) | h) | h
    · subst h
      exact ⟨fun enc henc => by simp [writeEncoding] at henc,
             fun g' hg => by simp [effGlobalAttrs] at hg⟩
    · by_cases hse :
        (classifyVars (enrichTime (enrichLatLon ds0)).data_vars).surface_ds.isEmpty = true
      · rw [if_pos hse] at h; simp at h
      · rw [if_neg hse] at h
        simp only [List.mem_cons, List.not_mem_nil, or_false] at h
        rcases h with h | h <;> subst h
        · exact ⟨fun enc henc => by simpa [writeEncoding] using henc.symm,
                 fun g' hg => by simpa [effGlobalAttrs] using hg.symm⟩
        · exact ⟨fun enc henc => by simp [writeEncoding] at henc,
                 fun g' hg => by simp [effGlobalAttrs] at hg⟩
    · exact processPressureGroups_write_fields _ _ _ _ eff h
    · by_cases hr : (processPressureGroups
          (classifyVars (enrichTime (enrichLatLon ds0)).data_vars).grouped
          (global_attrs n1 n2 (y ++ "-" ++ m ++ "-" ++ d))
          (y ++ "-" ++ m ++ "-" ++ d) outDir).2.isSome = true
      · rw [if_pos hr] at h; simp at h
      · rw [if_neg hr] at h
        simp only [List.mem_singleton] at h
        subst h
        exact ⟨fun enc henc => by simp [writeEncoding] at henc,
               fun g' hg => by simp [effGlobalAttrs] at hg⟩

/-- C7: for a dataset with a time coordinate the original `units` and
`calendar` attributes are discarded before the new descriptive attributes
are installed, so the resulting time attributes hold `long_name` Time,
`standard_name` time and `axis` T and no `units` or `calendar` key; and
every write the transformer performs, surface or pressure-level, passes the
fixed time encoding of days since 0001-01-01 on the proleptic Gregorian
calendar. -/
theorem C7_time_attrs_and_encoding :
    (∀ ds a, ds.coords.lookup "time" = some a →
      (enrichTime ds).coords.lookup "time" = some (updateTimeAttrs a))
    ∧ (∀ a : Attrs,
        (updateTimeAttrs a).lookup "units" = none
        ∧ (updateTimeAttrs a).lookup "calendar" = none
        ∧ (updateTimeAttrs a).lookup "long_name" = some "Time"
        ∧ (updateTimeAttrs a).lookup "standard_name" = some "time"
        ∧ (updateTimeAttrs a).lookup "axis" = some "T")
    ∧ (∀ file openRes outDir n1 n2 eff,
        eff ∈ (process_single_netcdf file openRes outDir n1 n2).1 →
        ∀ enc, writeEncoding eff = some enc →
          enc = [("time", [("units", "days since 0001-01-01"),
                           ("calendar", "proleptic_gregorian")])]) := by
  refine ⟨?_, ?_, ?_⟩
  · intro ds a h
    have hc : dsContains ds "time" = true := by simp [dsContains, h]
    rw [enrichTime, if_pos hc, dsMapAttrs_coords_lookup, h, Option.map_some']
  · intro a
    have hu : ∀ k, (updateTimeAttrs a).lookup k
        = (time_attrs_new.lookup k).or
            ((attrsPop (attrsPop a "units") "calendar").lookup k) := by
      intro k; exact attrsUpdate_lookup _ _ k
    refine ⟨?_, ?_, ?_, ?_, ?_⟩
    · rw [hu, attrsPop_lookup, attrsPop_lookup]; simp [time_attrs_new, List.lookup]
    · rw [hu, attrsPop_lookup]; simp [time_attrs_new, List.lookup]
    · rw [hu]; rfl
    · rw [hu]; rfl
    · rw [hu]; rfl
  · intro file openRes outDir n1 n2 eff heff enc henc
    cases hsd : searchDate file.data with
    | none =>
      unfold process_single_netcdf at heff
      rw [hsd] at heff
      simp at heff
    | some ymd =>
      obtain ⟨y, m, d⟩ := ymd
      exact (process_single_write_fields file openRes outDir n1 n2 y m d hsd
        eff heff).1 enc henc

/-! ## Pattern-matching lemmas -/

theorem dropPre_eq_some {p : List Char} : ∀ {l r : List Char},
    dropPre p l = some r ↔ l = p ++ r := by
  induction p with
  | nil => intro l r; simp [dropPre, eq_comm]
  | cons c p ih =>
    intro l r
    cases l with
    | nil => simp [dropPre]
    | cons a as =>
      by_cases hac : a = c
      · subst hac; simp [dropPre, ih]
      · simp only [dropPre, if_neg hac, List.cons_append, List.cons.injEq]
        constructor
        · intro h; exact Option.noConfusion h
        · rintro ⟨h, _⟩; exact absurd h hac

theorem takeDigits_eq_some : ∀ {n : Nat} {l t r : List Char},
    takeDigits n l = some (t, r)
      ↔ l = t ++ r ∧ t.length = n ∧ t.all Char.isDigit = true := by
  intro n
  induction n with
  | zero =>
    intro l t r
    simp only [takeDigits, Option.some_inj, Prod.mk.injEq]
    constructor
    · rintro ⟨ht, hr⟩; subst ht; subst hr; simp
    · rintro ⟨hl, hlen, _⟩
      have ht : t = [] := List.length_eq_zero.mp hlen
      subst ht
      exact ⟨rfl, by simpa using hl⟩
  | succ n ih =>
    intro l t r
    cases l with
    | nil =>
      simp only [takeDigits]
      constructor
      · intro h; exact Option.noConfusion h
      · rintro ⟨hl, hlen, _⟩
        cases t with
        | nil => simp at hlen
        | cons x t' => exact absurd hl.symm (by simp)
    | cons c cs =>
      by_cases hd : c.isDigit = true
      · rw [takeDigits, if_pos hd]
        constructor
        · intro h
          obtain ⟨⟨t', r'⟩, hts, heq⟩ := Option.map_eq_some'.mp h
          obtain ⟨hl, hlen, hall⟩ := ih.mp hts
          cases heq
          subst hl
          refine ⟨by simp, by simp [hlen], ?_⟩
          simp only [List.all_cons, Bool.and_eq_true]
          exact ⟨hd, hall⟩
        · rintro ⟨hl, hlen, hall⟩
          cases t with
          | nil => simp at hlen
          | cons x t' =>
            simp only [List.cons_append, List.cons.injEq] at hl
            obtain ⟨hx, hcs⟩ := hl
            subst hx
            simp only [List.all_cons, Bool.and_eq_true] at hall
            have : takeDigits n cs = some (t', r) :=
              ih.mpr ⟨hcs, by simpa using hlen, hall.2⟩
            rw [this, Option.map_some']
      · rw [takeDigits, if_neg hd]
        constructor
        · intro h; exact Option.noConfusion h
        · rintro ⟨hl, hlen, hall⟩
          cases t with
          | nil => simp at hlen
          | cons x t' =>
            simp only [List.cons_append, List.cons.injEq] at hl
            obtain ⟨hx, _⟩ := hl
            subst hx
            simp only [List.all_cons, Bool.and_eq_true] at hall
            exact absurd hall.1 hd

theorem matchDateAt_eq_some {l : List Char} {y m d : String}
    (h : matchDateAt l = some (y, m, d)) :
    ∃ rest, l = datePat y m d ++ rest
      ∧ y.data.length = 4 ∧ m.data.length = 2 ∧ d.data.length = 2
      ∧ y.data.all Char.isDigit = true ∧ m.data.all Char.isDigit = true
      ∧ d.data.all Char.isDigit = true := by
  unfold matchDateAt at h
  rw [Option.bind_eq_some] at h
  obtain ⟨r1, h1, h⟩ := h
  rw [Option.bind_eq_some] at h
  obtain ⟨py, h2, h⟩ := h
  rw [Option.bind_eq_some] at h
  obtain ⟨r3, h3, h⟩ := h
  rw [Option.bind_eq_some] at h
  obtain ⟨pm, h4, h⟩ := h
  rw [Option.bind_eq_some] at h
  obtain ⟨r5, h5, h⟩ := h
  rw [Option.bind_eq_some] at h
  obtain ⟨pd, h6, h⟩ := h
  obtain ⟨hy, hm, hd⟩ : String.mk py.1 = y ∧ String.mk pm.1 = m ∧ String.mk pd.1 = d := by
    simpa using h
  obtain ⟨hl1, hy4, hyd⟩ := takeDigits_eq_some.mp h2
  obtain ⟨hl2, hm2, hmd⟩ := takeDigits_eq_some.mp h4
  obtain ⟨hl3, hd2, hdd⟩ := takeDigits_eq_some.mp h6
  have hl0 := dropPre_eq_some.mp h1
  have hu1 := dropPre_eq_some.mp h3
  have hu2 := dropPre_eq_some.mp h5
  refine ⟨pd.2, ?_, ?_, ?_, ?_, ?_, ?_, ?_⟩
  · subst hy; subst hm; subst hd
    rw [hl0, hl1, hu1, hl2, hu2, hl3]
    simp [datePat]
  · rw [← hy]; exact hy4
  · rw [← hm]; exact hm2
  · rw [← hd]; exact hd2
  · rw [← hy]; exact hyd
  · rw [← hm]; exact hmd
  · rw [← hd]; exact hdd

theorem matchDateAt_complete {y m d : String} (rest : List Char)
    (hy : y.data.length = 4) (hm : m.data.length = 2) (hd : d.data.length = 2)
    (hyd : y.data.all Char.isDigit = true) (hmd : m.data.all Char.isDigit = true)
    (hdd : d.data.all Char.isDigit = true) :
    matchDateAt (datePat y m d ++ rest) = some (y, m, d) := by
  have h1 : dropPre "graphcast_".data (datePat y m d ++ rest)
      = some (y.data ++ ('_' :: (m.data ++ ('_' :: (d.data ++ rest))))) :=
    dropPre_eq_some.mpr (by simp [datePat])
  have h2 : takeDigits 4 (y.data ++ ('_' :: (m.data ++ ('_' :: (d.data ++ rest)))))
      = some (y.data, '_' :: (m.data ++ ('_' :: (d.data ++ rest)))) :=
    takeDigits_eq_some.mpr ⟨rfl, hy, hyd⟩
  have h3 : dropPre ['_'] ('_' :: (m.data ++ ('_' :: (d.data ++ rest))))
      = some (m.data ++ ('_' :: (d.data ++ rest))) := dropPre_eq_some.mpr rfl
  have h4 : takeDigits 2 (m.data ++ ('_' :: (d.data ++ rest)))
      = some (m.data, '_' :: (d.data ++ rest)) :=
    takeDigits_eq_some.mpr ⟨rfl, hm, hmd⟩
  have h5 : dropPre ['_'] ('_' :: (d.data ++ rest))
      = some (d.data ++ rest) := dropPre_eq_some.mpr rfl
  have h6 : takeDigits 2 (d.data ++ rest) = some (d.data, rest) :=
    takeDigits_eq_some.mpr ⟨rfl, hd, hdd⟩
  unfold matchDateAt
  simp only [h1, Option.some_bind]
  simp only [h2, Option.some_bind]
  simp only [h3, Option.some_bind]
  simp only [h4, Option.some_bind]
  simp only [h5, Option.some_bind]
  simp only [h6, Option.some_bind]

theorem searchDate_of_matchDateAt {l : List Char} {r : String × String × String}
    (h : matchDateAt l = some r) : searchDate l = some r := by
  cases l with
  | nil =>
    rw [show matchDateAt [] = none by rfl] at h
    exact Option.noConfusion h
  | cons c cs =>
    unfold searchDate
    rw [h]

theorem searchDate_sound : ∀ {l : List Char} {y m d : String},
    searchDate l = some (y, m, d) →
    y.data.length = 4 ∧ m.data.length = 2 ∧ d.data.length = 2
      ∧ y.data.all Char.isDigit = true ∧ m.data.all Char.isDigit = true
      ∧ d.data.all Char.isDigit = true
      ∧ ∃ pre rest, l = pre ++ datePat y m d ++ rest := by
  intro l
  induction l with
  | nil => intro y m d h; simp [searchDate] at h
  | cons c cs ih =>
    intro y m d h
    unfold searchDate at h
    cases hm : matchDateAt (c :: cs) with
    | some r =>
      rw [hm] at h
      obtain rfl : r = (y, m, d) := by simpa using h
      obtain ⟨rest, hl, p1, p2, p3, p4, p5, p6⟩ := matchDateAt_eq_some hm
      exact ⟨p1, p2, p3, p4, p5, p6, [], rest, by simpa using hl⟩
    | none =>
      rw [hm] at h
      obtain ⟨p1, p2, p3, p4, p5, p6, pre, rest, hl⟩ := ih h
      exact ⟨p1, p2, p3, p4, p5, p6, c :: pre, rest, by simp [hl]⟩

theorem searchDate_complete (pre : List Char) {y m d : String} (rest : List Char)
    (hy : y.data.length = 4) (hm : m.data.length = 2) (hd : d.data.length = 2)
    (hyd : y.data.all Char.isDigit = true) (hmd : m.data.all Char.isDigit = true)
    (hdd : d.data.all Char.isDigit = true) :
    (searchDate (pre ++ datePat y m d ++ rest)).isSome = true := by
  induction pre with
  | nil =>
    rw [List.nil_append,
      searchDate_of_matchDateAt (matchDateAt_complete rest hy hm hd hyd hmd hdd)]
    rfl
  | cons c pre ih =>
    rw [List.cons_append, List.cons_append]
    cases hmm : matchDateAt (c :: (pre ++ datePat y m d ++ rest)) with
    | some r => rw [searchDate_of_matchDateAt hmm]; rfl
    | none =>
      have hstep : searchDate (c :: (pre ++ datePat y m d ++ rest))
          = searchDate (pre ++ datePat y m d ++ rest) := by
        conv_lhs => rw [searchDate, hmm]
      rw [hstep]
      exact ih

/-! ## C6 -/

/-- C6: the transformer's date extraction is exactly the presence of the
embedded pattern.  Whenever the search succeeds, the extracted year, month
and day are digit groups of widths 4, 2 and 2 embedded in the filename at
some position behind a literal `graphcast_`; whenever the filename contains
such an embedded pattern the search succeeds; and when the search fails the
transformer returns at once, performing no effect at all, in particular no
output write and no failure-log append. -/
theorem C6_date_extraction :
    (∀ (l : List Char) (y m d : String), searchDate l = some (y, m, d) →
      y.data.length = 4 ∧ m.data.length = 2 ∧ d.data.length = 2
        ∧ y.data.all Char.isDigit = true ∧ m.data.all Char.isDigit = true
        ∧ d.data.all Char.isDigit = true
        ∧ ∃ pre rest, l = pre ++ datePat y m d ++ rest)
    ∧ (∀ (pre rest : List Char) (y m d : String),
        y.data.length = 4 → m.data.length = 2 → d.data.length = 2 →
        y.data.all Char.isDigit = true → m.data.all Char.isDigit = true →
        d.data.all Char.isDigit = true →
        (searchDate (pre ++ datePat y m d ++ rest)).isSome = true)
    ∧ (∀ (file : String) (openRes : Except String Dataset) (outDir n1 n2 : String),
        searchDate file.data = none →
        process_single_netcdf file openRes outDir n1 n2 = ([], none)) := by
  refine ⟨fun l y m d h => searchDate_sound h,
    fun pre rest y m d h1 h2 h3 h4 h5 h6 =>
      searchDate_complete pre rest h1 h2 h3 h4 h5 h6, ?_⟩
  intro file openRes outDir n1 n2 h
  unfold process_single_netcdf
  rw [h]

/-- Concrete instantiation of C6 discharging each hypothesis. -/
theorem C6_date_extraction_witness :
    searchDate "xx_graphcast_1999_12_31_extra".data = some ("1999", "12", "31")
    ∧ (searchDate (("xx_" ++ "graphcast_1999_12_31").data ++ "_extra".data)).isSome = true
    ∧ process_single_netcdf "day_one.nc" (Except.error "boom") "/out" "T1" "T2" = ([], none) :=
  ⟨by decide,
   by
    have h := C6_date_extraction.2.1 "xx_".data "_extra".data "1999" "12" "31"
      (by decide) (by decide) (by decide) (by decide) (by decide) (by decide)
    simpa [datePat] using h,
   C6_date_extraction.2.2 "day_one.nc" (Except.error "boom") "/out" "T1" "T2" (by decide)⟩

/-! ## C5 -/

/-- A transformer effect that writes an output dataset. -/
def isWriteEffect (eff : Effect) : Bool :=
  (writeEncoding eff).isSome

/-- A transformer effect that appends a line to the failure log, which the
script only ever opens in append mode. -/
def isSkipLogEffect : Effect → Bool
  | Effect.appendSkipLog _ => true
  | _ => false

/-- C5: when the input file's open fails, the transformer emits the progress
report, the skip report and exactly one failure-log append of the form
filename, separator, error message, writes no output dataset, and returns
normally so that processing continues with other files. -/
theorem C5_open_failure_skips (file e outDir n1 n2 y m d : String)
    (hsd : searchDate file.data = some (y, m, d)) :
    process_single_netcdf file (Except.error e) outDir n1 n2
      = ([Effect.reportProcessing file (y ++ "-" ++ m ++ "-" ++ d),
          Effect.reportReadError file e,
          Effect.appendSkipLog (file ++ " - " ++ e)], none)
    ∧ (process_single_netcdf file (Except.error e) outDir n1 n2).1.filter isWriteEffect = []
    ∧ ((process_single_netcdf file (Except.error e) outDir n1 n2).1.countP isSkipLogEffect) = 1 := by
  have h : process_single_netcdf file (Except.error e) outDir n1 n2
      = ([Effect.reportProcessing file (y ++ "-" ++ m ++ "-" ++ d),
          Effect.reportReadError file e,
          Effect.appendSkipLog (file ++ " - " ++ e)], none) := by
    unfold process_single_netcdf
    rw [hsd]
  refine ⟨h, ?_, ?_⟩ <;> rw [h]
  · rfl
  · rfl

/-- Concrete instantiation of C5 discharging its hypothesis. -/
theorem C5_open_failure_skips_witness :
    process_single_netcdf "graphcast_2024_01_01.nc" (Except.error "boom") "/out" "T1" "T2"
      = ([Effect.reportProcessing "graphcast_2024_01_01.nc" ("2024" ++ "-" ++ "01" ++ "-" ++ "01"),
          Effect.reportReadError "graphcast_2024_01_01.nc" "boom",
          Effect.appendSkipLog ("graphcast_2024_01_01.nc" ++ " - " ++ "boom")], none) :=
  (C5_open_failure_skips "graphcast_2024_01_01.nc" "boom" "/out" "T1" "T2"
    "2024" "01" "01" (by decide)).1

/-! ## C2 -/

theorem aggLevels_perm {α : Type} (g : List (Nat × α)) :
    (aggLevels g).Perm (g.map Prod.fst) :=
  (List.perm_insertionSort _ g).map Prod.fst

theorem aggLevels_sorted {α : Type} (g : List (Nat × α))
    (hnd : (g.map Prod.fst).Nodup) :
    List.Sorted (· < ·) (aggLevels g) := by
  have hle : List.Pairwise (· ≤ ·) (aggLevels g) :=
    List.pairwise_map.mpr (List.sorted_insertionSort (fun p q : Nat × α => p.1 ≤ q.1) g)
  have hnd' : (aggLevels g).Nodup := ((aggLevels_perm g).nodup_iff).mpr hnd
  exact (hle.and hnd').imp fun h => lt_of_le_of_ne h.1 h.2

/-- C2: for a group of (level, array) pairs with the levels drawn from the
pressure-level table and pairwise distinct, as the classification loop
produces them, the aggregated pressure-level coordinate is strictly
ascending, is as a set exactly the input levels, does not depend on the
order in which the pairs were accumulated, survives the 32-bit integer
conversion unchanged, and carries the three descriptive attributes of the
`plevel` coordinate. -/
theorem C2_aggregated_levels {α : Type} (g : List (Nat × α))
    (_hne : g ≠ []) (hnd : (g.map Prod.fst).Nodup)
    (hpl : ∀ p ∈ g, p.1 ∈ pressure_levels) :
    List.Sorted (· < ·) (aggLevels g)
    ∧ (aggLevels g).toFinset = (g.map Prod.fst).toFinset
    ∧ (∀ g' : List (Nat × α), g'.Perm g → aggLevels g' = aggLevels g)
    ∧ (aggLevels g).map toInt32 = (aggLevels g).map Int.ofNat
    ∧ attrsUpdate [] plevel_attrs
        = [("long_name", "Pressure Level"), ("standard_name", "air_pressure"),
           ("units", "hPa")] := by
  have hperm := aggLevels_perm g
  refine ⟨aggLevels_sorted g hnd, List.toFinset_eq_of_perm _ _ hperm, ?_, ?_, by decide⟩
  · intro g' hp
    haveI : IsAntisymm Nat (· < ·) := ⟨fun a b h1 h2 => absurd h2 (Nat.lt_asymm h1)⟩
    have hnd' : (g'.map Prod.fst).Nodup := ((hp.map Prod.fst).nodup_iff).mpr hnd
    exact List.eq_of_perm_of_sorted
      ((aggLevels_perm g').trans ((hp.map Prod.fst).trans hperm.symm))
      (aggLevels_sorted g' hnd') (aggLevels_sorted g hnd)
  · apply List.map_congr_left
    intro l hl
    have hlp : l ∈ pressure_levels := by
      obtain ⟨p, hpmem, hpeq⟩ := List.mem_map.mp (hperm.mem_iff.mp hl)
      exact hpeq ▸ hpl p hpmem
    have hall : ∀ x ∈ pressure_levels, toInt32 x = Int.ofNat x := by decide
    exact hall l hlp

theorem classifyFold_grouped_wf :
    ∀ (names : List (String × DataArray)) (acc : ClassAcc),
      (names.map Prod.fst).Nodup →
      (∀ bg ∈ acc.grouped,
        (bg.2.map fun p => bg.1 ++ toString p.1).Nodup
        ∧ (∀ p ∈ bg.2, p.1 ∈ pressure_levels)
        ∧ ∀ p ∈ bg.2, (bg.1 ++ toString p.1) ∉ names.map Prod.fst) →
      ∀ bg ∈ (names.foldl classifyStep acc).grouped,
        (bg.2.map fun p => bg.1 ++ toString p.1).Nodup
        ∧ ∀ p ∈ bg.2, p.1 ∈ pressure_levels := by
  intro names
  induction names with
  | nil =>
    intro acc _ hinv bg hbg
    exact ⟨(hinv bg hbg).1, (hinv bg hbg).2.1⟩
  | cons nv rest ih =>
    intro acc hnd hinv
    simp only [List.map_cons, List.nodup_cons] at hnd
    simp only [List.foldl_cons]
    apply ih _ hnd.2
    intro bg hbg
    unfold classifyStep at hbg
    cases hfm : findPressureMatch nv.1 with
    | some bl =>
      rw [hfm] at hbg
      obtain ⟨hbmem, hlmem, hname⟩ :=
        findPressureMatch_some (b := bl.1) (l := bl.2) (by simpa using hfm)
      simp only [List.mem_map] at hbg
      obtain ⟨g0, hg0, hbg⟩ := hbg
      obtain ⟨hnd0, hpl0, hdisj0⟩ := hinv g0 hg0
      by_cases hb : g0.1 == bl.1
      · rw [if_pos hb] at hbg
        subst hbg
        have hbeq : g0.1 = bl.1 := by simpa using hb
        refine ⟨?_, ?_, ?_⟩
        · simp only [List.map_append, List.map_cons, List.map_nil]
          rw [List.nodup_append]
          refine ⟨hnd0, by simp, ?_⟩
          intro x hx
          simp only [List.mem_singleton]
          intro hx1
          subst hx1
          have : (g0.1 ++ toString bl.2) ∉ nv.1 :: rest.map Prod.fst := by
            obtain ⟨p, hp, hpe⟩ := List.mem_map.mp hx
            simpa [hpe] using hdisj0 p hp
          rw [hbeq, ← hname] at this
          exact this (List.mem_cons_self _ _)
        · intro p hp
          rcases List.mem_append.mp hp with hp | hp
          · exact hpl0 p hp
          · simp only [List.mem_singleton] at hp
            subst hp
            exact hlmem
        · intro p hp
          rcases List.mem_append.mp hp with hp | hp
          · have h2 := hdisj0 p hp
            simp only [List.map_cons, List.mem_cons] at h2
            exact fun hc => h2 (Or.inr hc)
          · simp only [List.mem_singleton] at hp
            subst hp
            show g0.1 ++ toString bl.2 ∉ List.map Prod.fst rest
            rw [hbeq, ← hname]
            exact hnd.1
      · rw [if_neg (by simpa using fun hc : (g0.1 == bl.1) = true => hb hc)] at hbg
        subst hbg
        refine ⟨hnd0, hpl0, fun p hp hc => hdisj0 p hp (List.mem_cons_of_mem _ hc)⟩
    | none =>
      rw [hfm] at hbg
      cases hs : surface_var_names.contains nv.1 with
      | true =>
        rw [hs] at hbg
        obtain ⟨hnd0, hpl0, hdisj0⟩ := hinv bg (by simpa using hbg)
        exact ⟨hnd0, hpl0, fun p hp hc => hdisj0 p hp (List.mem_cons_of_mem _ hc)⟩
      | false =>
        rw [hs] at hbg
        simp only [if_neg] at hbg
        obtain ⟨hnd0, hpl0, hdisj0⟩ := hinv bg (by simpa using hbg)
        exact ⟨hnd0, hpl0, fun p hp hc => hdisj0 p hp (List.mem_cons_of_mem _ hc)⟩

/-- The classification loop justifies the hypotheses of `C2_aggregated_levels`:
for distinct variable names, as an xarray dataset provides them, every
accumulated pressure group has pairwise-distinct levels drawn from the fixed
pressure-level table. -/
theorem classifyVars_grouped_wf (dvars : List (String × DataArray))
    (hnd : (dvars.map Prod.fst).Nodup) :
    ∀ bg ∈ (classifyVars dvars).grouped,
      (bg.2.map Prod.fst).Nodup ∧ ∀ p ∈ bg.2, p.1 ∈ pressure_levels := by
  intro bg hbg
  have h := classifyFold_grouped_wf dvars ⟨[], pressure_vars.map fun v => (v, [])⟩ hnd
    (by
      intro bg0 hbg0
      simp only [List.mem_map] at hbg0
      obtain ⟨v, _, hv⟩ := hbg0
      subst hv
      simp)
    bg hbg
  refine ⟨?_, h.2⟩
  have hmap : (bg.2.map fun p => bg.1 ++ toString p.1)
      = (bg.2.map Prod.fst).map fun l => bg.1 ++ toString l := by
    rw [List.map_map]
    rfl
  exact List.Nodup.of_map _ (hmap ▸ h.1)

/-- Concrete instantiation of C2 discharging each hypothesis. -/
theorem C2_aggregated_levels_witness :
    List.Sorted (· < ·) (aggLevels [(500, "a"), (100, "b"), (850, "c")])
    ∧ aggLevels [(500, "a"), (100, "b"), (850, "c")] = [100, 500, 850] :=
  ⟨(C2_aggregated_levels [(500, "a"), (100, "b"), (850, "c")]
      (by decide) (by decide) (by decide)).1,
   by decide⟩

/-! ## C3 -/

/-- A dataset whose `q` group has a shape mismatch across levels while its
`t` group and its surface variable are well formed. -/
def mismatchDs : Dataset :=
  { coords := [],
    data_vars := [("q50", { dims := [("lat", 3)], attrs := [] }),
                  ("q100", { dims := [("lat", 5)], attrs := [] }),
                  ("t500", { dims := [("lat", 3)], attrs := [] }),
                  ("u10m", { dims := [("lat", 3)], attrs := [] })] }

/-- A pressure-level write effect for base quantity `t`. -/
def isTPressureWrite : Effect → Bool
  | Effect.writePressure _ v _ _ _ _ _ => v == "t"
  | _ => false

/-- C3 fails as stated: on a file whose `q` group has a shape mismatch and
whose `t` group is well formed, the run ends with the uncaught concatenation
error and no `t` output is written, although the claim promises the other
quantities' outputs and a non-aborting run. -/
theorem C3_counterexample :
    (process_single_netcdf "graphcast_2024_01_01.nc" (Except.ok mismatchDs)
        "/out" "T1" "T2").2
      = some "shape mismatch across pressure levels"
    ∧ (process_single_netcdf "graphcast_2024_01_01.nc" (Except.ok mismatchDs)
        "/out" "T1" "T2").1.filter isTPressureWrite = [] :=
  ⟨by decide, by decide⟩

theorem processPressureGroups_abort
    (v : String) (bad : List (Nat × DataArray))
    (post : List (String × List (Nat × DataArray))) (g : Attrs) (date o err : String)
    (hbad : bad.isEmpty = false)
    (hmis : xrConcat ((sortByLevel bad).map Prod.snd) = Except.error err) :
    ∀ pre : List (String × List (Nat × DataArray)),
      (processPressureGroups pre g date o).2 = none →
      processPressureGroups (pre ++ (v, bad) :: post) g date o
        = ((processPressureGroups pre g date o).1, some err) := by
  intro pre
  induction pre with
  | nil =>
    intro _
    rw [List.nil_append]
    cases bad with
    | nil => simp at hbad
    | cons b bs => simp only [processPressureGroups, hmis]
  | cons p pre ih =>
    obtain ⟨w, ld⟩ := p
    intro hpre
    rw [List.cons_append]
    cases ld with
    | nil => exact ih hpre
    | cons q qs =>
      simp only [processPressureGroups] at hpre ⊢
      cases hc : xrConcat ((sortByLevel (q :: qs)).map Prod.snd) with
      | error e => simp only [hc] at hpre; simp at hpre
      | ok comb =>
        simp only [hc] at hpre ⊢
        rw [ih hpre]

/-- C3 amended: when the per-level arrays of one base quantity disagree in
shape, the concatenation error is uncaught: the pressure loop stops at that
quantity, the run produces exactly the effects of the groups before it in
the fixed iteration order, the quantities after it produce nothing, and the
file's processing aborts with the error; outputs already written, in
particular the surface dataset written before the loop, are preserved. -/
theorem C3_mismatch_aborts_rest (pre : List (String × List (Nat × DataArray)))
    (v : String) (bad : List (Nat × DataArray))
    (post : List (String × List (Nat × DataArray)))
    (g : Attrs) (date o err : String)
    (hpre : (processPressureGroups pre g date o).2 = none)
    (hbad : bad.isEmpty = false)
    (hmis : xrConcat ((sortByLevel bad).map Prod.snd) = Except.error err) :
    processPressureGroups (pre ++ (v, bad) :: post) g date o
      = ((processPressureGroups pre g date o).1, some err)
    ∧ ∀ (file : String) (ds : Dataset) (outDir n1 n2 y m d : String),
        searchDate file.data = some (y, m, d) →
        (classifyVars (enrichTime (enrichLatLon ds)).data_vars).surface_ds.isEmpty = false →
        Effect.writeSurface
            (outDir ++ "/surface_variables_" ++ (y ++ "-" ++ m ++ "-" ++ d) ++ ".nc")
            (classifyVars (enrichTime (enrichLatLon ds)).data_vars).surface_ds
            (global_attrs n1 n2 (y ++ "-" ++ m ++ "-" ++ d)) encoding
          ∈ (process_single_netcdf file (Except.ok ds) outDir n1 n2).1 := by
  refine ⟨processPressureGroups_abort v bad post g date o err hbad hmis pre hpre, ?_⟩
  intro file ds outDir n1 n2 y m d hsd hsurf
  unfold process_single_netcdf
  rw [hsd]
  simp [hsurf]

/-- Concrete instantiation of C3 discharging each hypothesis: the mismatched
`q` group of `mismatchDs` aborts the loop before the well-formed `t` group. -/
def badGroup : List (Nat × DataArray) :=
  [(50, { dims := [("lat", 3)], attrs := [] }),
   (100, { dims := [("lat", 5)], attrs := [] })]

def postGroups : List (String × List (Nat × DataArray)) :=
  [("t", [(500, { dims := [("lat", 3)], attrs := [] })])]

theorem C3_mismatch_aborts_rest_witness :
    processPressureGroups ([] ++ ("q", badGroup) :: postGroups) [] "2024-01-01" "/out"
      = ((processPressureGroups [] [] "2024-01-01" "/out").1,
         some "shape mismatch across pressure levels") :=
  (C3_mismatch_aborts_rest [] "q" badGroup postGroups [] "2024-01-01" "/out"
    "shape mismatch across pressure levels" rfl rfl rfl).1

/-! ## C4 -/

/-- C4 fails as stated: with an empty listing the dispatcher still performs
a filesystem side effect, creating the year's output directory. -/
theorem C4_counterexample :
    DispatchEffect.makeDirs ("/cwd" ++ "/" ++ "2024") true
      ∈ process_netcdf_for_year "2024" "/cwd" "/in" [] := by decide

/-- C4 amended: when discovery finds zero matching filenames the dispatcher
reports no files and stops without invoking the per-file transformer, but it
has already created the year's output directory, unconditionally and before
discovery, so that directory creation is its one filesystem side effect. -/
theorem C4_no_files_amended (year cwd input_dir : String) (listing : List String)
    (h : listing.filter (discoveryMatch year) = []) :
    process_netcdf_for_year year cwd input_dir listing
      = [DispatchEffect.makeDirs (cwd ++ "/" ++ year) true,
         DispatchEffect.reportNoFiles year input_dir]
    ∧ ∀ f2, DispatchEffect.invokeTransformer f2
        ∉ process_netcdf_for_year year cwd input_dir listing := by
  have h1 : process_netcdf_for_year year cwd input_dir listing
      = [DispatchEffect.makeDirs (cwd ++ "/" ++ year) true,
         DispatchEffect.reportNoFiles year input_dir] := by
    unfold process_netcdf_for_year
    rw [h]
    rfl
  refine ⟨h1, fun f2 hf => ?_⟩
  rw [h1] at hf
  simp at hf

/-- Concrete instantiation of C4 discharging its hypothesis. -/
theorem C4_no_files_amended_witness :
    process_netcdf_for_year "2024" "/cwd" "/in" ["notes.txt"]
      = [DispatchEffect.makeDirs ("/cwd" ++ "/" ++ "2024") true,
         DispatchEffect.reportNoFiles "2024" "/in"] :=
  (C4_no_files_amended "2024" "/cwd" "/in" ["notes.txt"] (by decide)).1

/-! ## C8 -/

/-- C8: latitude/longitude metadata enrichment is all-or-nothing.  If either
coordinate is missing, the dataset is returned unchanged, so neither is
enriched; when both are present, each of the two receives its catalog
attributes. -/
theorem C8_latlon_all_or_nothing :
    (∀ ds : Dataset,
      dsContains ds "lat" = false ∨ dsContains ds "lon" = false →
      enrichLatLon ds = ds)
    ∧ (∀ (ds : Dataset) (a : Attrs),
        dsContains ds "lat" = true → dsContains ds "lon" = true →
        ds.coords.lookup "lat" = some a →
        (enrichLatLon ds).coords.lookup "lat" = some (attrsUpdate a
          [("long_name", "Latitude"), ("standard_name", "latitude"),
           ("units", "degrees_north"), ("axis", "Y")]))
    ∧ (∀ (ds : Dataset) (a : Attrs),
        dsContains ds "lat" = true → dsContains ds "lon" = true →
        ds.coords.lookup "lon" = some a →
        (enrichLatLon ds).coords.lookup "lon" = some (attrsUpdate a
          [("long_name", "Longitude"), ("standard_name", "longitude"),
           ("units", "degrees_east"), ("axis", "X")])) := by
  refine ⟨?_, ?_, ?_⟩
  · intro ds h
    rcases h with h | h <;> rw [enrichLatLon, if_neg (by simp [h])]
  · intro ds a hlat hlon ha
    rw [enrichLatLon, if_pos (by rw [hlat, hlon]; rfl), dsUpdateAttrs,
      dsMapAttrs_coords_lookup_ne _ _ _ _ (by decide), dsUpdateAttrs,
      dsMapAttrs_coords_lookup, ha, Option.map_some']
    rfl
  · intro ds a hlat hlon ha
    rw [enrichLatLon, if_pos (by rw [hlat, hlon]; rfl), dsUpdateAttrs,
      dsMapAttrs_coords_lookup, dsUpdateAttrs,
      dsMapAttrs_coords_lookup_ne _ _ _ _ (by decide), ha, Option.map_some']
    rfl

/-- A dataset with a latitude coordinate but no longitude coordinate. -/
def dsLatOnly : Dataset := { coords := [("lat", [("note", "n")])], data_vars := [] }

/-- A dataset with both horizontal coordinates. -/
def dsLatLon : Dataset :=
  { coords := [("lat", [("note", "n")]), ("lon", [])], data_vars := [] }

/-- Concrete instantiation of C8 discharging each hypothesis. -/
theorem C8_latlon_all_or_nothing_witness :
    enrichLatLon dsLatOnly = dsLatOnly
    ∧ (enrichLatLon dsLatLon).coords.lookup "lat"
        = some (attrsUpdate [("note", "n")]
            [("long_name", "Latitude"), ("standard_name", "latitude"),
             ("units", "degrees_north"), ("axis", "Y")]) :=
  ⟨C8_latlon_all_or_nothing.1 dsLatOnly (Or.inr (by decide)),
   C8_latlon_all_or_nothing.2.1 dsLatLon _ (by decide) (by decide) (by decide)⟩

/-! ## C9 -/

/-- C9 fails as stated: with the year argument 24 the file
`graphcast_24_01_01.nc` passes the dispatcher's discovery filter, but the
transformer's search pattern requires four digits after `graphcast_` and
does not match, so the dispatched file is silently skipped. -/
theorem C9_counterexample :
    discoveryMatch "24" "graphcast_24_01_01.nc" = true
    ∧ searchDate "graphcast_24_01_01.nc".data = none
    ∧ process_single_netcdf "graphcast_24_01_01.nc" (Except.error "boom")
        "/out" "T1" "T2" = ([], none) :=
  ⟨by decide, by decide, by decide⟩

/-- C9 amended: provided the year argument is a four-digit string, as the
intended usage has it, every filename accepted by the discovery filter also
matches the transformer's date pattern with that same year, so the silent
skip is unreachable for dispatched files and the transformer always makes
progress on them. -/
theorem C9_dispatch_match_amended (year f : String)
    (hlen : year.data.length = 4) (hdig : year.data.all Char.isDigit = true)
    (hm : discoveryMatch year f = true) :
    (∃ ms dd : String, searchDate f.data = some (year, ms, dd))
    ∧ ∀ (openRes : Except String Dataset) (outDir n1 n2 : String),
        (process_single_netcdf f openRes outDir n1 n2).1 ≠ [] := by
  unfold discoveryMatch at hm
  rw [Option.isSome_iff_exists] at hm
  obtain ⟨rest0, hm⟩ := hm
  rw [Option.bind_eq_some] at hm
  obtain ⟨r, h1, hm⟩ := hm
  rw [Option.bind_eq_some] at hm
  obtain ⟨mp, h2, hm⟩ := hm
  rw [Option.bind_eq_some] at hm
  obtain ⟨r2, h3, hm⟩ := hm
  rw [Option.bind_eq_some] at hm
  obtain ⟨dp, h4, hm⟩ := hm
  obtain ⟨hf1, hml, hmd⟩ := takeDigits_eq_some.mp h2
  obtain ⟨hf2, hdl, hdd⟩ := takeDigits_eq_some.mp h4
  have hr0 := dropPre_eq_some.mp h1
  have hr2 := dropPre_eq_some.mp h3
  have hrest := dropPre_eq_some.mp hm
  have hus : ("_" : String).data = ['_'] := rfl
  have hfdata : f.data
      = datePat year (String.mk mp.1) (String.mk dp.1) ++ ('.' :: 'n' :: 'c' :: rest0) := by
    rw [hr0, hf1, hr2, hf2, hrest]
    simp [datePat, String.data_append, hus]
  have hsd : searchDate f.data = some (year, String.mk mp.1, String.mk dp.1) := by
    rw [hfdata]
    exact searchDate_of_matchDateAt (matchDateAt_complete _ hlen
      (by simpa using hml) (by simpa using hdl) hdig
      (by simpa using hmd) (by simpa using hdd))
  refine ⟨⟨String.mk mp.1, String.mk dp.1, hsd⟩, ?_⟩
  intro openRes outDir n1 n2
  unfold process_single_netcdf
  rw [hsd]
  cases openRes <;> simp

/-- Concrete instantiation of the amended C9 discharging each hypothesis. -/
theorem C9_dispatch_match_amended_witness :
    discoveryMatch "2024" "graphcast_2024_01_01.nc" = true
    ∧ (process_single_netcdf "graphcast_2024_01_01.nc" (Except.error "x")
        "/out" "T1" "T2").1 ≠ [] :=
  ⟨by decide,
   (C9_dispatch_match_amended "2024" "graphcast_2024_01_01.nc"
      (by decide) (by decide) (by decide)).2 (Except.error "x") "/out" "T1" "T2"⟩

/-! ## C10 -/

/-- C10: the global-attribute template is computed once per input file, and
every output dataset written for that file, the surface one and every
pressure-level one alike, carries exactly that template, including its
creation_date, history and title fields. -/
theorem C10_global_attrs_shared (file : String) (ds : Dataset)
    (outDir n1 n2 y m d : String)
    (hsd : searchDate file.data = some (y, m, d)) :
    ∀ eff ∈ (process_single_netcdf file (Except.ok ds) outDir n1 n2).1,
      ∀ g', effGlobalAttrs eff = some g' →
        g' = global_attrs n1 n2 (y ++ "-" ++ m ++ "-" ++ d) := by
  intro eff h g' hg
  exact (process_single_write_fields file (Except.ok ds) outDir n1 n2 y m d
    hsd eff h).2 g' hg

/-- A small input dataset with a time coordinate and one surface variable. -/
def exTimeDs : Dataset :=
  { coords := [("time", [("units", "hours since 2024-01-01"), ("calendar", "gregorian")])],
    data_vars := [("u10m", { dims := [("time", 2)], attrs := [] })] }

/-- The effect trace of a successful transformer run on `exTimeDs`. -/
def exRunEffects : List Effect :=
  (process_single_netcdf "graphcast_2024_01_01.nc" (Except.ok exTimeDs)
    "/out" "T1" "T2").1

/-- The global attributes of the surface write in that trace. -/
def exRunGattrs : Attrs :=
  (effGlobalAttrs (exRunEffects.get ⟨1, by decide⟩)).getD []

/-- Concrete instantiation of C10 discharging each hypothesis. -/
theorem C10_global_attrs_shared_witness :
    exRunGattrs = global_attrs "T1" "T2" ("2024" ++ "-" ++ "01" ++ "-" ++ "01") :=
  C10_global_attrs_shared "graphcast_2024_01_01.nc" exTimeDs "/out" "T1" "T2"
    "2024" "01" "01" (by decide) (exRunEffects.get ⟨1, by decide⟩) (by decide)
    exRunGattrs (by decide)

/-- Concrete instantiation of C7 discharging each hypothesis. -/
theorem C7_time_attrs_and_encoding_witness :
    (enrichTime exTimeDs).coords.lookup "time"
      = some (updateTimeAttrs [("units", "hours since 2024-01-01"), ("calendar", "gregorian")])
    ∧ (updateTimeAttrs [("units", "hours since 2024-01-01"),
        ("calendar", "gregorian")]).lookup "units" = none
    ∧ writeEncoding (exRunEffects.get ⟨1, by decide⟩) = some encoding
    ∧ encoding = [("time", [("units", "days since 0001-01-01"),
        ("calendar", "proleptic_gregorian")])] :=
  ⟨C7_time_attrs_and_encoding.1 exTimeDs _ (by decide),
   (C7_time_attrs_and_encoding.2.1 _).1,
   by decide,
   C7_time_attrs_and_encoding.2.2 "graphcast_2024_01_01.nc" (Except.ok exTimeDs)
     "/out" "T1" "T2" (exRunEffects.get ⟨1, by decide⟩) (by decide) encoding (by decide)⟩

end WDCC
